import Mathlib

/-!
The result aggregator of `run.go` (essentialkaos/check)

A shallow embedding of `Result.Add`, `Result.Passed`, `Result.String` and of the
collector loop of `RunAll`, followed by the properties proved about them.

Modelling conventions.
* Go `int` is the 64-bit two-complement integer of the usual targets: a counter is an
  `Int`, and `+=` is addition followed by `wrapInt`.
* Go `string` is `String`; `!= ""` is inequality with the empty string.
* A Go `error` is represented by the text its `Error()` method returns; the nil
  interface is `none`.
* `fmt.Sprintf("%d", n)` is the decimal numeral of `n` with a leading `-` when negative.
-/

/-! ## Machine integers -/

/-- Number of bits of a Go `int` on 64-bit targets. -/
def intBits : Nat := 64

/-- Two-complement wrap-around of a mathematical integer into the range of `int`. -/
def wrapInt (x : Int) : Int :=
  (x + 2 ^ (intBits - 1)) % 2 ^ intBits - 2 ^ (intBits - 1)

/-- Go `a + b` on `int`: the sum, wrapped. -/
def addInt (a b : Int) : Int := wrapInt (a + b)

/-- The values a Go `int` can hold. -/
def inIntRange (x : Int) : Prop := -(2 ^ (intBits - 1)) ≤ x ∧ x < 2 ^ (intBits - 1)

instance (x : Int) : Decidable (inIntRange x) := by
  unfold inIntRange; infer_instance

/-! ## Data model -/

/-- Go `string`. -/
abbrev GoString : Type := String

/-- Modelled from the spec: the declaration of `type Result struct` is not part of
`run.go`; its fields are the seven counters, the optional fatal `RunError` and the
colon-joined retained work-directory paths that `run.go` reads and writes. -/
structure Result where
  Succeeded : Int := 0
  Skipped : Int := 0
  Failed : Int := 0
  Panicked : Int := 0
  FixturePanicked : Int := 0
  ExpectedFailures : Int := 0
  Missed : Int := 0
  RunError : Option GoString := none
  WorkDir : GoString := ""
  deriving DecidableEq

/-- The zero value `Result{}`. -/
def Result.empty : Result := {}

/-! ## `Result` methods (`run.go`, lines 127-183) -/

/-- Method `func (r *Result) Add(other *Result)`: the receiver after the call. -/
def Result.Add (r other : Result) : Result :=
  { Succeeded := addInt r.Succeeded other.Succeeded
    Skipped := addInt r.Skipped other.Skipped
    Failed := addInt r.Failed other.Failed
    Panicked := addInt r.Panicked other.Panicked
    FixturePanicked := addInt r.FixturePanicked other.FixturePanicked
    ExpectedFailures := addInt r.ExpectedFailures other.ExpectedFailures
    Missed := addInt r.Missed other.Missed
    RunError := r.RunError
    WorkDir :=
      if r.WorkDir ≠ "" ∧ other.WorkDir ≠ "" then
        r.WorkDir ++ (":" ++ other.WorkDir)
      else if other.WorkDir ≠ "" then
        other.WorkDir
      else
        r.WorkDir }

/-- Method `func (r *Result) Passed() bool`. -/
def Result.Passed (r : Result) : Bool :=
  r.Failed == 0 && r.Panicked == 0 &&
    r.FixturePanicked == 0 && r.Missed == 0 &&
    r.RunError == none

/-- Library call `fmt.Sprintf("%d", n)` for an `int`: the decimal numeral, signed. -/
def sprintfD (n : Int) : GoString :=
  if n < 0 then "-" ++ Nat.repr n.natAbs else Nat.repr n.toNat

/-- Method `func (r *Result) String() string`. -/
def Result.String (r : Result) : GoString :=
  match r.RunError with
  | some err => "ERROR: " ++ err
  | none =>
    let value : GoString :=
      if r.Failed = 0 ∧ r.Panicked = 0 ∧ r.FixturePanicked = 0 ∧ r.Missed = 0 then
        "OK: "
      else
        "OOPS: "
    let value := value ++ (sprintfD r.Succeeded ++ " passed")
    let value := if r.Skipped ≠ 0 then value ++ (", " ++ sprintfD r.Skipped ++ " skipped") else value
    let value :=
      if r.ExpectedFailures ≠ 0 then
        value ++ (", " ++ sprintfD r.ExpectedFailures ++ " expected failures")
      else value
    let value := if r.Failed ≠ 0 then value ++ (", " ++ sprintfD r.Failed ++ " FAILED") else value
    let value := if r.Panicked ≠ 0 then value ++ (", " ++ sprintfD r.Panicked ++ " PANICKED") else value
    let value :=
      if r.FixturePanicked ≠ 0 then
        value ++ (", " ++ sprintfD r.FixturePanicked ++ " FIXTURE-PANICKED")
      else value
    let value := if r.Missed ≠ 0 then value ++ (", " ++ sprintfD r.Missed ++ " MISSED") else value
    let value := if r.WorkDir ≠ "" then value ++ ("\nWORK=" ++ r.WorkDir) else value
    value

/-! ## The collector of `RunAll` (`run.go`, lines 70-95) -/

/-- The collector loop of `RunAll`: `result := Result{}` followed by one
`result.Add(<-resCh)` per registered suite, where `received` lists the values read from
`resCh` in their order of arrival. -/
def RunAll.collect (received : List Result) : Result :=
  received.foldl Result.Add Result.empty

/-- Function `RunAll`, given the suite runner `Run` (already applied to the
configuration) and the order `arrival` in which the workers deliver the suites: each
worker sends `Run(s, runConf)` on `resCh` and the collector merges what it receives. -/
def RunAll {σ : Type} (Run : σ → Result) (arrival : List σ) : Result :=
  RunAll.collect (arrival.map Run)

/-- Lines 79-82 of `RunAll`: `j := *threadsNum; if j <= 1 { j = 1 }`. -/
def RunAll.poolSize (threadsNum : Int) : Int :=
  if threadsNum ≤ 1 then 1 else threadsNum

/-- Lines 84-90 of `RunAll`: the loop `for i := 0; i < j; i++ { go func() ... }`, from
the state `i` with `started` goroutines already launched. Each iteration launches one
worker; the result is the number launched when the loop exits, `none` when the fuel runs
out first. -/
def RunAll.spawnLoop (j : Int) : Nat → Int → Nat → Option Nat
  | 0, _, _ => none
  | fuel + 1, i, started =>
    if i < j then RunAll.spawnLoop j fuel (addInt i 1) (started + 1) else some started

/-- The number of workers `RunAll` starts for a value of the flag `check.threads`. -/
def RunAll.workersStarted (threadsNum : Int) (fuel : Nat) : Option Nat :=
  RunAll.spawnLoop (RunAll.poolSize threadsNum) fuel 0 0

/-! ## Test suite registry (`run.go`, lines 15-23) -/

/-- Function `Suite`: the value it returns and the registry `allSuites` after the call,
`append(allSuites, suite)`. -/
def Suite {σ : Type} (allSuites : List σ) (suite : σ) : σ × List σ :=
  (suite, allSuites ++ [suite])

/-! ## Listing (`run.go`, lines 103-122) -/

/-- Modelled from the spec: the suite runner `newSuiteRunner` builds is declared outside
`run.go`; `List` reads its ordered sequence `tests` of selected test methods only. -/
structure suiteRunner (τ : Type) where
  tests : List τ

/-- Function `List` of `run.go` (that name is the list type here): the names of the
tests of the runner built for `suite`, appended one by one. The constructor
`newSuiteRunner` and the method `String` of a test are declared outside `run.go` and
are parameters. -/
def ListTests {σ ρ τ : Type} (newSuiteRunner : σ → ρ → suiteRunner τ)
    (testString : τ → GoString) (suite : σ) (runConf : ρ) : List GoString :=
  (newSuiteRunner suite runConf).tests.foldl (fun names t => names ++ [testString t]) []

/-- Function `ListAll`: `names = append(names, List(suite, runConf)...)` for each suite
of `allSuites` in turn, starting from the nil slice. -/
def ListAll {σ ρ τ : Type} (newSuiteRunner : σ → ρ → suiteRunner τ)
    (testString : τ → GoString) (allSuites : List σ) (runConf : ρ) : List GoString :=
  allSuites.foldl
    (fun names suite => names ++ ListTests newSuiteRunner testString suite runConf) []

/-! ## Run configuration built by `TestingT` (`run.go`, lines 28-52) -/

/-- The flags declared at lines 28-38, as parsed; the defaults are those of the
declarations. `benchTime` is a `time.Duration`, a number of nanoseconds. -/
structure Flags where
  filterFlag : GoString := ""
  verboseFlag : Bool := false
  streamFlag : Bool := false
  benchFlag : Bool := false
  benchTime : Int := 1000000000
  benchMem : Bool := false
  listFlag : Bool := false
  workFlag : Bool := false
  threadsNum : Int := 1

/-- Modelled from the spec: `type RunConf struct` is declared outside `run.go`; these
are the fields the composite literal of `TestingT` sets. -/
structure RunConf where
  Filter : GoString := ""
  Verbose : Bool := false
  Stream : Bool := false
  Benchmark : Bool := false
  BenchmarkTime : Int := 0
  BenchmarkMem : Bool := false
  KeepWorkDir : Bool := false

/-- The configuration `conf` that `TestingT` builds at lines 44-52; `testingVerbose` is
the value of `testing.Verbose()`. -/
def TestingT.conf (flags : Flags) (testingVerbose : Bool) : RunConf :=
  { Filter := flags.filterFlag
    Verbose := flags.verboseFlag || testingVerbose
    Stream := flags.streamFlag && decide (flags.threadsNum ≤ 1)
    Benchmark := flags.benchFlag
    BenchmarkTime := flags.benchTime
    BenchmarkMem := flags.benchMem
    KeepWorkDir := flags.workFlag }

/-! ## Vocabulary of the statements -/

/-- The seven counter fields of a `Result`, in the order `Add` updates them. -/
def Result.counters (r : Result) : List Int :=
  [r.Succeeded, r.Skipped, r.Failed, r.Panicked, r.FixturePanicked, r.ExpectedFailures,
    r.Missed]

/-- Pieces of a character sequence between the `:` separators (`strings.Split(w, ":")`):
always at least one piece, and one more per separator. -/
def splitColon : List Char → List (List Char)
  | [] => [[]]
  | c :: cs =>
    if c = ':' then [] :: splitColon cs
    else
      match splitColon cs with
      | [] => [[c]]
      | p :: ps => (c :: p) :: ps

/-- The retained work-directory paths a `WorkDir` value records: none when it is empty,
otherwise the pieces between its `:` separators, in order. -/
def workDirPaths (w : GoString) : List (List Char) :=
  if w = "" then [] else splitColon w.data

/-- The prefix `String()` starts the summary with, as the code chooses it. -/
def Result.verdictPrefix (r : Result) : GoString :=
  if r.Failed = 0 ∧ r.Panicked = 0 ∧ r.FixturePanicked = 0 ∧ r.Missed = 0 then "OK: "
  else "OOPS: "

/-- The six categories after `passed`, each with its counter and label, in the fixed
order of the summary. -/
def Result.laterCategories (r : Result) : List (Int × GoString) :=
  [(r.Skipped, " skipped"), (r.ExpectedFailures, " expected failures"),
    (r.Failed, " FAILED"), (r.Panicked, " PANICKED"),
    (r.FixturePanicked, " FIXTURE-PANICKED"), (r.Missed, " MISSED")]

/-- The count entry of one category: the decimal counter followed by the label. -/
def countEntry (c : Int × GoString) : GoString := sprintfD c.1 ++ c.2

/-- The retained-work-directory line: present exactly when `WorkDir` is non-empty. -/
def Result.workDirLine (r : Result) : GoString :=
  if r.WorkDir ≠ "" then "\nWORK=" ++ r.WorkDir else ""

/-- The summary as the specification words it: after the prefix, one entry per category
whose counter is non-zero, `passed` included, in the fixed order, then the
work-directory line. -/
def Result.specSummary (r : Result) : GoString :=
  r.verdictPrefix ++
    ", ".intercalate
      ((((r.Succeeded, " passed") :: r.laterCategories).filter (fun c => c.1 ≠ 0)).map
        countEntry) ++
    r.workDirLine

/-- The summary with the `passed` entry unconditional: after the prefix, the `passed`
entry, then one entry per later category whose counter is non-zero, in the fixed order,
then the work-directory line. -/
def Result.summaryWithPassed (r : Result) : GoString :=
  r.verdictPrefix ++
    ", ".intercalate
      (countEntry (r.Succeeded, " passed") ::
        (r.laterCategories.filter (fun c => c.1 ≠ 0)).map countEntry) ++
    r.workDirLine

/-- One `value += ", ..."` step of `String()`. -/
def appendEntry (acc e : GoString) : GoString := acc ++ (", " ++ e)

/-- Every value of the list is representable as an `int`: no overflow. -/
def allInIntRange (xs : List Int) : Prop := ∀ x ∈ xs, inIntRange x

instance (xs : List Int) : Decidable (allInIntRange xs) := by
  unfold allInIntRange; infer_instance

/-- Every counter of the `Result` is non-negative. -/
def Result.nonNeg (r : Result) : Prop := ∀ c ∈ r.counters, 0 ≤ c

instance (r : Result) : Decidable r.nonNeg := by
  unfold Result.nonNeg; infer_instance

/-- The sums `r.Add(other)` forms for the seven counters, as mathematical integers. -/
def Result.mathSums (r other : Result) : List Int :=
  List.zipWith (fun a b => a + b) r.counters other.counters

/-- The totals of the seven counters over a list of results, as mathematical integers. -/
def mathTotals (l : List Result) : List Int :=
  [(l.map Result.Succeeded).sum, (l.map Result.Skipped).sum, (l.map Result.Failed).sum,
    (l.map Result.Panicked).sum, (l.map Result.FixturePanicked).sum,
    (l.map Result.ExpectedFailures).sum, (l.map Result.Missed).sum]

/-! ## Arithmetic of wrapped addition -/

theorem addInt_comm (a b : Int) : addInt a b = addInt b a := by
  unfold addInt
  rw [Int.add_comm]

theorem addInt_assoc (a b c : Int) : addInt (addInt a b) c = addInt a (addInt b c) := by
  simp only [addInt, wrapInt, intBits]
  norm_num
  omega

/-! ## Counters under `Add` -/

theorem Result.counters_Add_comm (a b : Result) :
    (a.Add b).counters = (b.Add a).counters := by
  simp only [Result.counters, Result.Add]
  simp only [addInt_comm a.Succeeded, addInt_comm a.Skipped, addInt_comm a.Failed,
    addInt_comm a.Panicked, addInt_comm a.FixturePanicked, addInt_comm a.ExpectedFailures,
    addInt_comm a.Missed]

theorem Result.counters_Add_assoc (a b c : Result) :
    ((a.Add b).Add c).counters = (a.Add (b.Add c)).counters := by
  simp only [Result.counters, Result.Add, addInt_assoc]

/-- The counters after `Add` depend on the receiver through its counters only. -/
theorem Result.counters_Add_congr {a b : Result} (h : a.counters = b.counters)
    (x : Result) : (a.Add x).counters = (b.Add x).counters := by
  simp only [Result.counters, List.cons.injEq, and_true] at h
  obtain ⟨h1, h2, h3, h4, h5, h6, h7⟩ := h
  simp only [Result.counters, Result.Add, h1, h2, h3, h4, h5, h6, h7]

theorem Result.counters_foldl_congr (l : List Result) :
    ∀ {a b : Result}, a.counters = b.counters →
      (l.foldl Result.Add a).counters = (l.foldl Result.Add b).counters := by
  induction l with
  | nil => intro a b h; exact h
  | cons x xs ih =>
    intro a b h
    exact ih (Result.counters_Add_congr h x)

/-- Swapping two adjacent merges leaves the counters alone. -/
theorem Result.counters_Add_swap (r x y : Result) :
    ((r.Add x).Add y).counters = ((r.Add y).Add x).counters := by
  rw [Result.counters_Add_assoc, Result.counters_Add_assoc]
  simp only [Result.counters, Result.Add, addInt_comm x.Succeeded, addInt_comm x.Skipped,
    addInt_comm x.Failed, addInt_comm x.Panicked, addInt_comm x.FixturePanicked,
    addInt_comm x.ExpectedFailures, addInt_comm x.Missed]

theorem Result.counters_foldl_perm {l₁ l₂ : List Result} (h : l₁.Perm l₂) :
    ∀ r : Result, (l₁.foldl Result.Add r).counters = (l₂.foldl Result.Add r).counters := by
  induction h with
  | nil => intro r; rfl
  | cons x _ ih => intro r; exact ih (r.Add x)
  | swap x y l =>
    intro r
    exact Result.counters_foldl_congr l (Result.counters_Add_swap r y x)
  | trans _ _ ih₁ ih₂ => intro r; exact (ih₁ r).trans (ih₂ r)

/-! ## Claims about the aggregation -/

/-- C1. `Result.Add` is commutative and associative on the seven counter fields: merging
`B` into `A` and `A` into `B` give the same counters, and merging `B` then `C` into `A`
gives the same counters as merging the merge of `B` and `C` into `A`. -/
theorem C1_Add_comm_assoc_counters (A B C : Result) :
    (A.Add B).counters = (B.Add A).counters ∧
      ((A.Add B).Add C).counters = (A.Add (B.Add C)).counters :=
  ⟨Result.counters_Add_comm A B, Result.counters_Add_assoc A B C⟩

/-- C2. `Passed()` is true exactly when `Failed`, `Panicked`, `FixturePanicked` and
`Missed` are zero and `RunError` is unset; overwriting `Succeeded`, `Skipped`,
`ExpectedFailures` and `WorkDir` with any values leaves the verdict as it was. -/
theorem C2_Passed_iff (r : Result) :
    (r.Passed = true ↔
        r.Failed = 0 ∧ r.Panicked = 0 ∧ r.FixturePanicked = 0 ∧ r.Missed = 0 ∧
          r.RunError = none) ∧
      ∀ (s k e : Int) (w : GoString),
        Result.Passed { r with Succeeded := s, Skipped := k, ExpectedFailures := e,
                               WorkDir := w } = r.Passed := by
  refine ⟨?_, fun _ _ _ _ => rfl⟩
  simp only [Result.Passed, Bool.and_eq_true, beq_iff_eq, and_assoc]

/-- C3. The totals `RunAll` collects do not depend on the order of arrival: folding
`Result.Add` from the empty `Result` over a list of per-suite results and over any
permutation of it yields the same seven counters. -/
theorem C3_collect_order_independent (l₁ l₂ : List Result) (h : l₁.Perm l₂) :
    (RunAll.collect l₁).counters = (RunAll.collect l₂).counters :=
  Result.counters_foldl_perm h Result.empty

/-- Witness of C3: three per-suite results delivered in two different orders. -/
theorem C3_collect_order_independent_witness :
    (RunAll.collect [{ Succeeded := 3, WorkDir := "a" }, { Failed := 1 },
        { Skipped := 2, Missed := 4, WorkDir := "b" }]).counters =
      (RunAll.collect [{ Skipped := 2, Missed := 4, WorkDir := "b" },
        { Succeeded := 3, WorkDir := "a" }, { Failed := 1 }]).counters :=
  C3_collect_order_independent _ _ (by decide)

/-- C4 at a concrete input: a per-suite `Result` carrying a `RunError`, merged into the
empty `Result`, leaves an aggregate without `RunError` that passes and prints a count
summary, although the merged `Result` itself does not pass and prints the error. -/
theorem C4_runError_lost_by_Add :
    (Result.empty.Add { RunError := some "bad filter" }).RunError = none ∧
      (Result.empty.Add { RunError := some "bad filter" }).Passed = true ∧
      (Result.empty.Add { RunError := some "bad filter" }).String = "OK: 0 passed" ∧
      (RunAll (fun _ : Unit => { RunError := some "bad filter" }) [()]).Passed = true ∧
      Result.Passed { RunError := some "bad filter" } = false ∧
      Result.String { RunError := some "bad filter" } = "ERROR: bad filter" := by
  decide

/-! ## Work-directory paths under `Add` -/

theorem splitColon_ne_nil (l : List Char) : splitColon l ≠ [] := by
  cases l with
  | nil => simp [splitColon]
  | cons c cs =>
    simp only [splitColon]
    split_ifs
    · simp
    · split <;> simp

theorem splitColon_append_colon (a b : List Char) :
    splitColon (a ++ ':' :: b) = splitColon a ++ splitColon b := by
  induction a with
  | nil => simp [splitColon]
  | cons c cs ih =>
    have step : splitColon (c :: (cs ++ ':' :: b)) =
        if c = ':' then [] :: (splitColon cs ++ splitColon b)
        else
          match splitColon cs ++ splitColon b with
          | [] => [[c]]
          | p :: ps => (c :: p) :: ps := by
      rw [← ih]; rfl
    rw [List.cons_append, step]
    simp only [splitColon]
    split_ifs with hc
    · rfl
    · have hne := splitColon_ne_nil cs
      cases hcs : splitColon cs with
      | nil => exact absurd hcs hne
      | cons p ps => rfl

theorem GoString.eq_empty_iff (w : GoString) : w = "" ↔ w.data = [] := by
  constructor
  · intro h; rw [h]
  · intro h; exact String.ext h

theorem workDirPaths_join (a b : GoString) (ha : a ≠ "") :
    workDirPaths (a ++ (":" ++ b)) = splitColon a.data ++ splitColon b.data := by
  have hne : a ++ (":" ++ b) ≠ "" := by
    intro h
    apply ha
    rw [GoString.eq_empty_iff] at h ⊢
    simp only [String.data_append, List.append_eq_nil] at h
    exact h.1
  simp only [workDirPaths, hne, if_false, String.data_append]
  exact splitColon_append_colon a.data b.data

/-! ## Shape of the summary -/

theorem intercalate_go_eq_foldl (l : List GoString) :
    ∀ acc : GoString, String.intercalate.go acc ", " l = l.foldl appendEntry acc := by
  induction l with
  | nil => intro acc; rfl
  | cons e es ih =>
    intro acc
    simp only [String.intercalate.go, List.foldl_cons, ih, appendEntry, String.append_assoc]

theorem append_foldl_appendEntry (p : GoString) (l : List GoString) :
    ∀ acc : GoString, p ++ l.foldl appendEntry acc = l.foldl appendEntry (p ++ acc) := by
  induction l with
  | nil => intro acc; rfl
  | cons e es ih =>
    intro acc
    simp only [List.foldl_cons, ih, appendEntry, String.append_assoc]

/-- A conditional `value += fmt.Sprintf(", %d label", c)` is one step of the fold over
the entries of the categories with a non-zero counter. -/
theorem foldl_entries_cons (acc : GoString) (c : Int) (label : GoString)
    (rest : List (Int × GoString)) :
    List.foldl appendEntry acc
        ((((c, label) :: rest).filter (fun c => c.1 ≠ 0)).map countEntry) =
      List.foldl appendEntry
        (if c ≠ 0 then acc ++ (", " ++ sprintfD c ++ label) else acc)
        ((rest.filter (fun c => c.1 ≠ 0)).map countEntry) := by
  by_cases hc : c = 0
  · simp [List.filter, hc]
  · simp [List.filter, hc, appendEntry, countEntry, String.append_assoc]

/-- Without a `RunError`, `String()` is the prefix, the `passed` entry, the entries of
the later categories with a non-zero counter, and the work-directory line. -/
theorem Result.String_of_noError (r : Result) (h : r.RunError = none) :
    r.String = r.summaryWithPassed := by
  have hw : ∀ v : GoString,
      (if r.WorkDir ≠ "" then v ++ ("\nWORK=" ++ r.WorkDir) else v) = v ++ r.workDirLine := by
    intro v
    by_cases h7 : r.WorkDir = ""
    · simp [Result.workDirLine, h7]
    · simp [Result.workDirLine, h7]
  have hs : r.summaryWithPassed =
      List.foldl appendEntry (r.verdictPrefix ++ (sprintfD r.Succeeded ++ " passed"))
        ((r.laterCategories.filter (fun c => c.1 ≠ 0)).map countEntry) ++ r.workDirLine := by
    simp only [Result.summaryWithPassed, String.intercalate]
    rw [intercalate_go_eq_foldl, append_foldl_appendEntry]
    rfl
  rw [hs]
  simp only [Result.String, h, hw, Result.laterCategories, foldl_entries_cons,
    List.filter_nil, List.map_nil, List.foldl_nil, Result.verdictPrefix]

theorem Result.verdictPrefix_of_Passed (r : Result) (h : r.RunError = none) :
    r.verdictPrefix = if r.Passed = true then "OK: " else "OOPS: " := by
  simp only [Result.verdictPrefix, Result.Passed, h, Bool.and_eq_true, beq_iff_eq,
    beq_self_eq_true, and_true, and_assoc]

theorem workDirPaths_Add (A B : Result) :
    workDirPaths (A.Add B).WorkDir = workDirPaths A.WorkDir ++ workDirPaths B.WorkDir := by
  by_cases ha : A.WorkDir = "" <;> by_cases hb : B.WorkDir = ""
  · simp [Result.Add, ha, hb, workDirPaths]
  · simp [Result.Add, ha, hb, workDirPaths]
  · simp [Result.Add, ha, hb, workDirPaths]
  · have hj := workDirPaths_join A.WorkDir B.WorkDir ha
    simp only [Result.Add, ne_eq, ha, hb, not_false_eq_true, and_self, if_true, hj]
    simp [workDirPaths, ha, hb]

/-! ## Claims about the work-directory paths -/

/-- C5, as stated, fails: merging `B` into `A` and `A` into `B` give different `WorkDir`
strings when both sides retain a work directory. -/
theorem C5_WorkDir_order_differs :
    (Result.Add { WorkDir := "/tmp/a" } { WorkDir := "/tmp/b" }).WorkDir = "/tmp/a:/tmp/b" ∧
      (Result.Add { WorkDir := "/tmp/b" } { WorkDir := "/tmp/a" }).WorkDir = "/tmp/b:/tmp/a" ∧
      (Result.Add { WorkDir := "/tmp/a" } { WorkDir := "/tmp/b" }).WorkDir ≠
        (Result.Add { WorkDir := "/tmp/b" } { WorkDir := "/tmp/a" }).WorkDir := by
  decide

/-- C5, amended. The merge is commutative on the retained work-directory paths up to
their order: the paths after merging `B` into `A` are the paths of `A` followed by those
of `B`, so both merges retain the same paths, one list a permutation of the other; the
two `WorkDir` strings are equal when `A` or `B` retains none; the counters agree. -/
theorem C5_Add_WorkDir_comm_up_to_order (A B : Result) :
    workDirPaths (A.Add B).WorkDir = workDirPaths A.WorkDir ++ workDirPaths B.WorkDir ∧
      (workDirPaths (A.Add B).WorkDir).Perm (workDirPaths (B.Add A).WorkDir) ∧
      (A.WorkDir = "" ∨ B.WorkDir = "" → (A.Add B).WorkDir = (B.Add A).WorkDir) ∧
      (A.Add B).counters = (B.Add A).counters := by
  refine ⟨workDirPaths_Add A B, ?_, ?_, Result.counters_Add_comm A B⟩
  · rw [workDirPaths_Add, workDirPaths_Add]
    exact List.perm_append_comm
  · rintro (ha | hb)
    · by_cases hb : B.WorkDir = ""
      · simp [Result.Add, ha, hb]
      · simp [Result.Add, ha, hb]
    · by_cases ha : A.WorkDir = ""
      · simp [Result.Add, ha, hb]
      · simp [Result.Add, ha, hb]

/-- C6. After `r.Add(other)` the `WorkDir` of `r` is the old one, `":"` and the one of
`other` when both are non-empty, the one of `other` when only that is non-empty, and the
old one unchanged when the one of `other` is empty. -/
theorem C6_Add_WorkDir_cases (r other : Result) :
    (r.WorkDir ≠ "" ∧ other.WorkDir ≠ "" →
        (r.Add other).WorkDir = r.WorkDir ++ ":" ++ other.WorkDir) ∧
      (r.WorkDir = "" ∧ other.WorkDir ≠ "" → (r.Add other).WorkDir = other.WorkDir) ∧
      (other.WorkDir = "" → (r.Add other).WorkDir = r.WorkDir) := by
  refine ⟨?_, ?_, ?_⟩
  · intro h
    simp only [Result.Add, h, ne_eq, not_false_eq_true, and_self, if_true,
      String.append_assoc]
  · rintro ⟨h1, h2⟩
    simp [Result.Add, h1, h2]
  · intro h
    simp [Result.Add, h]

/-- Witness of C6: the three cases at concrete work directories. -/
theorem C6_Add_WorkDir_cases_witness :
    (Result.Add { WorkDir := "/tmp/a" } { WorkDir := "/tmp/b" }).WorkDir = "/tmp/a:/tmp/b" ∧
      (Result.Add {} { WorkDir := "/tmp/b" }).WorkDir = "/tmp/b" ∧
      (Result.Add { WorkDir := "/tmp/a" } {}).WorkDir = "/tmp/a" :=
  ⟨(C6_Add_WorkDir_cases { WorkDir := "/tmp/a" } { WorkDir := "/tmp/b" }).1 (by decide),
    (C6_Add_WorkDir_cases {} { WorkDir := "/tmp/b" }).2.1 (by decide),
    (C6_Add_WorkDir_cases { WorkDir := "/tmp/a" } {}).2.2 (by decide)⟩

/-! ## Claims about the summary -/

/-- C7. Without a `RunError`, `String()` begins with `"OK: "` when `Passed()` is true and
with `"OOPS: "` when `Passed()` is false. -/
theorem C7_String_begins (r : Result) (h : r.RunError = none) :
    (r.Passed = true → ∃ rest : GoString, r.String = "OK: " ++ rest) ∧
      (r.Passed = false → ∃ rest : GoString, r.String = "OOPS: " ++ rest) := by
  rw [Result.String_of_noError r h]
  simp only [Result.summaryWithPassed, Result.verdictPrefix_of_Passed r h,
    String.append_assoc]
  constructor
  · intro hp
    exact ⟨_, by rw [if_pos hp]⟩
  · intro hp
    exact ⟨_, by rw [if_neg (by simp [hp])]⟩

/-- Witness of C7: a passing and a failing `Result`, both without `RunError`. -/
theorem C7_String_begins_witness :
    (∃ rest : GoString, Result.String { Succeeded := 2, Skipped := 1 } = "OK: " ++ rest) ∧
      (∃ rest : GoString, Result.String { Succeeded := 2, Missed := 1 } = "OOPS: " ++ rest) :=
  ⟨(C7_String_begins { Succeeded := 2, Skipped := 1 } rfl).1 (by decide),
    (C7_String_begins { Succeeded := 2, Missed := 1 } rfl).2 (by decide)⟩

/-- C8, as stated, fails: the empty `Result` has a zero `Succeeded` counter and its
summary still carries a `passed` entry, which the summary worded by the specification
does not. -/
theorem C8_passed_entry_at_zero :
    Result.empty.Succeeded = 0 ∧ Result.empty.String = "OK: 0 passed" ∧
      Result.empty.specSummary = "OK: " ∧ Result.empty.String ≠ Result.empty.specSummary := by
  decide

/-- C8, amended. Without a `RunError`, `String()` is the prefix, then the `passed` entry
whatever the value of `Succeeded`, then an entry for each of skipped, expected failures,
failed, panicked, fixture-panicked and missed exactly when its counter is non-zero, in
that order and separated by `", "`, then the work-directory line exactly when `WorkDir`
is non-empty. -/
theorem C8_String_entries (r : Result) (h : r.RunError = none) :
    r.String =
      r.verdictPrefix ++
        ", ".intercalate
          (countEntry (r.Succeeded, " passed") ::
            (([(r.Skipped, " skipped"), (r.ExpectedFailures, " expected failures"),
                (r.Failed, " FAILED"), (r.Panicked, " PANICKED"),
                (r.FixturePanicked, " FIXTURE-PANICKED"), (r.Missed, " MISSED")].filter
              (fun c => c.1 ≠ 0)).map countEntry)) ++
        (if r.WorkDir ≠ "" then "\nWORK=" ++ r.WorkDir else "") :=
  Result.String_of_noError r h

/-- Witness of C8: zero `Succeeded`, two non-zero later counters and a work directory. -/
theorem C8_String_entries_witness :
    Result.String { Skipped := 3, Panicked := 1, WorkDir := "/tmp/w" } =
      "OOPS: 0 passed, 3 skipped, 1 PANICKED\nWORK=/tmp/w" :=
  (C8_String_entries { Skipped := 3, Panicked := 1, WorkDir := "/tmp/w" } rfl).trans
    (by decide)

/-- C9. With a `RunError` set, `String()` is exactly `"ERROR: "` followed by the message
of the error, whatever the counters and `WorkDir`. -/
theorem C9_String_error (r : Result) (e : GoString) (h : r.RunError = some e) :
    r.String = "ERROR: " ++ e := by
  simp only [Result.String, h]

/-- Witness of C9: non-zero counters and a work directory do not show. -/
theorem C9_String_error_witness :
    Result.String { Succeeded := 4, Failed := 2, Missed := 1, WorkDir := "/tmp/w",
                    RunError := some "bad filter" } = "ERROR: bad filter" :=
  C9_String_error _ "bad filter" rfl

/-- C10. A `Result` whose only non-zero counters are `Succeeded = s`, `Failed = f` and
`Panicked = p`, all positive, without `RunError` and with empty `WorkDir`, does not pass
and prints `"OOPS: s passed, f FAILED, p PANICKED"` with the numbers in decimal. -/
theorem C10_scenario_summary (s f p : Int) (hs : 0 < s) (hf : 0 < f) (hp : 0 < p) :
    Result.Passed { Succeeded := s, Failed := f, Panicked := p } = false ∧
      Result.String { Succeeded := s, Failed := f, Panicked := p } =
        "OOPS: " ++ Nat.repr s.toNat ++ " passed, " ++ Nat.repr f.toNat ++ " FAILED, " ++
          Nat.repr p.toNat ++ " PANICKED" := by
  have hf0 : f ≠ 0 := by omega
  have hp0 : p ≠ 0 := by omega
  have hs1 : ¬ s < 0 := by omega
  have hf1 : ¬ f < 0 := by omega
  have hp1 : ¬ p < 0 := by omega
  constructor
  · simp [Result.Passed, hf0]
  · simp only [Result.String, sprintfD, hf0, hp0, hs1, hf1, hp1, ne_eq, not_true_eq_false,
      not_false_eq_true, if_true, if_false, false_and, and_false, String.append_assoc]
    rfl

/-- Witness of C10: the scenario of the specification, one test of each kind. -/
theorem C10_scenario_summary_witness :
    Result.Passed { Succeeded := 1, Failed := 1, Panicked := 1 } = false ∧
      Result.String { Succeeded := 1, Failed := 1, Panicked := 1 } =
        "OOPS: 1 passed, 1 FAILED, 1 PANICKED" :=
  C10_scenario_summary 1 1 1 (by decide) (by decide) (by decide)

/-! ## Registry, listing and configuration -/

theorem foldl_append_singleton {α β : Type} (f : α → β) (l : List α) :
    ∀ acc : List β, l.foldl (fun names t => names ++ [f t]) acc = acc ++ l.map f := by
  induction l with
  | nil => intro acc; simp
  | cons x xs ih => intro acc; simp [ih]

theorem foldl_append_lists {α β : Type} (f : α → List β) (l : List α) :
    ∀ acc : List β,
      l.foldl (fun names x => names ++ f x) acc = acc ++ (l.map f).flatten := by
  induction l with
  | nil => intro acc; simp
  | cons x xs ih => intro acc; simp [ih]

/-- C11. `Suite(s)` returns `s` unchanged and leaves the registry equal to the previous
one with `s` appended at the end: the length grows by exactly one and every earlier
entry keeps its position. -/
theorem C11_Suite_appends {σ : Type} (allSuites : List σ) (s : σ) :
    (Suite allSuites s).1 = s ∧
      (Suite allSuites s).2 = allSuites ++ [s] ∧
      (Suite allSuites s).2.length = allSuites.length + 1 ∧
      (∀ i, i < allSuites.length → (Suite allSuites s).2[i]? = allSuites[i]?) ∧
      (Suite allSuites s).2[allSuites.length]? = some s := by
  refine ⟨rfl, rfl, ?_, ?_, ?_⟩
  · simp [Suite]
  · intro i hi
    simp [Suite, List.getElem?_append_left hi]
  · simp [Suite]

/-- C12. `ListAll` returns the concatenation of `List(s1)`, ..., `List(sn)` over the
registry in registration order, each part in the order `List` returns it, which is the
order of the tests of the runner; it is empty when no suite is registered, and two calls
with the same registry and configuration return the same sequence. -/
theorem C12_ListAll_concat {σ ρ τ : Type} (newSuiteRunner : σ → ρ → suiteRunner τ)
    (testString : τ → GoString) (allSuites : List σ) (runConf : ρ) :
    ListAll newSuiteRunner testString allSuites runConf =
        (allSuites.map
          (fun suite => ListTests newSuiteRunner testString suite runConf)).flatten ∧
      (∀ suite, ListTests newSuiteRunner testString suite runConf =
        (newSuiteRunner suite runConf).tests.map testString) ∧
      ListAll newSuiteRunner testString [] runConf = [] ∧
      (∀ first second : List GoString,
        first = ListAll newSuiteRunner testString allSuites runConf →
        second = ListAll newSuiteRunner testString allSuites runConf → first = second) := by
  refine ⟨?_, ?_, rfl, ?_⟩
  · simp [ListAll, foldl_append_lists]
  · intro suite
    simp [ListTests, foldl_append_singleton]
  · intro first second h1 h2
    rw [h1, h2]

/-- C13. The configuration `TestingT` builds has `Stream` set exactly when the stream
flag is set and the thread count is at most 1; it is never set together with more than
one worker. -/
theorem C13_Stream_iff (flags : Flags) (testingVerbose : Bool) :
    ((TestingT.conf flags testingVerbose).Stream = true ↔
        flags.streamFlag = true ∧ flags.threadsNum ≤ 1) ∧
      ¬ ((TestingT.conf flags testingVerbose).Stream = true ∧ 1 < flags.threadsNum) := by
  constructor
  · simp only [TestingT.conf, Bool.and_eq_true, decide_eq_true_eq]
  · simp only [TestingT.conf, Bool.and_eq_true, decide_eq_true_eq]
    rintro ⟨⟨_, h⟩, h2⟩
    omega

/-! ## Worker pool -/

theorem addInt_of_inIntRange {a b : Int} (h : inIntRange (a + b)) : addInt a b = a + b := by
  simp only [inIntRange, intBits] at h
  simp only [addInt, wrapInt, intBits]
  norm_num at h ⊢
  omega

theorem RunAll.spawnLoop_eq (j : Int) (hj : j < 2 ^ (intBits - 1)) :
    ∀ (fuel : Nat) (i : Int) (started : Nat), 0 ≤ i → i ≤ j → (j - i).toNat < fuel →
      RunAll.spawnLoop j fuel i started = some (started + (j - i).toNat) := by
  intro fuel
  induction fuel with
  | zero => intro i started _ _ h; omega
  | succ n ih =>
    intro i started h0 hij hfuel
    by_cases hlt : i < j
    · have hstep : addInt i 1 = i + 1 := by
        apply addInt_of_inIntRange
        simp only [inIntRange, intBits] at hj ⊢
        norm_num at hj ⊢
        omega
      simp only [RunAll.spawnLoop, hlt, if_true, hstep]
      rw [ih (i + 1) (started + 1) (by omega) (by omega) (by omega)]
      congr 1
      omega
    · have hji : j = i := by omega
      simp only [RunAll.spawnLoop, hlt, if_false, hji]
      simp

/-- C14. For every value `n` of the thread count, zero and negative ones included,
`RunAll` starts `max(1, n)` workers: the launching loop ends, given fuel for its
`max(1, n) + 1` tests of the loop condition, having started that many goroutines. -/
theorem C14_workers_started (n : Int) (hn : inIntRange n) (fuel : Nat)
    (hfuel : (max 1 n).toNat < fuel) :
    RunAll.workersStarted n fuel = some (max 1 n).toNat ∧
      RunAll.poolSize n = max 1 n := by
  have hpool : RunAll.poolSize n = max 1 n := by
    unfold RunAll.poolSize
    split_ifs with h
    · omega
    · omega
  refine ⟨?_, hpool⟩
  have hj : RunAll.poolSize n < 2 ^ (intBits - 1) := by
    rw [hpool]
    simp only [inIntRange, intBits] at hn ⊢
    norm_num at hn ⊢
    omega
  unfold RunAll.workersStarted
  rw [RunAll.spawnLoop_eq _ hj fuel 0 0 (le_refl 0) (by rw [hpool]; omega)
    (by rw [hpool]; simpa using hfuel)]
  rw [hpool]
  simp

/-- Witness of C14: four threads start four workers, zero and negative counts one. -/
theorem C14_workers_started_witness :
    (RunAll.workersStarted 4 5 = some 4 ∧ RunAll.poolSize 4 = max 1 4) ∧
      (RunAll.workersStarted 0 2 = some 1 ∧ RunAll.poolSize 0 = max 1 0) ∧
      (RunAll.workersStarted (-3) 2 = some 1 ∧ RunAll.poolSize (-3) = max 1 (-3)) :=
  ⟨C14_workers_started 4 (by decide) 5 (by decide),
    C14_workers_started 0 (by decide) 2 (by decide),
    C14_workers_started (-3) (by decide) 2 (by decide)⟩

/-! ## Aggregation without overflow -/

theorem inIntRange_iff (x : Int) :
    inIntRange x ↔ -9223372036854775808 ≤ x ∧ x < 9223372036854775808 := by
  simp only [inIntRange, intBits]
  norm_num

theorem sum_map_nonneg (f : Result → Int) (l : List Result) (h : ∀ x ∈ l, 0 ≤ f x) :
    0 ≤ (l.map f).sum := by
  induction l with
  | nil => simp
  | cons x xs ih =>
    simp only [List.map_cons, List.sum_cons]
    have h1 := h x (List.mem_cons_self x xs)
    have h2 := ih (fun y hy => h y (List.mem_cons_of_mem x hy))
    omega

/-- A counter of the fold of `Add` is the mathematical total when that total is
representable and the summands are non-negative. -/
theorem foldl_Add_field (f : Result → Int)
    (hAdd : ∀ a b : Result, f (a.Add b) = addInt (f a) (f b)) (l : List Result) :
    ∀ acc : Result, 0 ≤ f acc → (∀ x ∈ l, 0 ≤ f x) →
      inIntRange (f acc + (l.map f).sum) →
      f (l.foldl Result.Add acc) = f acc + (l.map f).sum := by
  induction l with
  | nil => intro acc _ _ _; simp
  | cons x xs ih =>
    intro acc h0 hl hr
    have hx := hl x (List.mem_cons_self x xs)
    have hxs : ∀ y ∈ xs, 0 ≤ f y := fun y hy => hl y (List.mem_cons_of_mem x hy)
    have hs := sum_map_nonneg f xs hxs
    simp only [List.map_cons, List.sum_cons] at hr ⊢
    rw [inIntRange_iff] at hr
    have hstep : f (acc.Add x) = f acc + f x := by
      rw [hAdd]
      apply addInt_of_inIntRange
      rw [inIntRange_iff]
      omega
    rw [List.foldl_cons, ih (acc.Add x) (by omega) hxs (by rw [inIntRange_iff]; omega), hstep]
    omega

theorem collect_field (f : Result → Int)
    (hAdd : ∀ a b : Result, f (a.Add b) = addInt (f a) (f b)) (h0 : f Result.empty = 0)
    (l : List Result) (hl : ∀ x ∈ l, 0 ≤ f x) (hr : inIntRange (l.map f).sum) :
    f (RunAll.collect l) = (l.map f).sum := by
  unfold RunAll.collect
  rw [foldl_Add_field f hAdd l Result.empty (by omega) hl (by rw [h0]; simpa using hr), h0]
  simp

theorem collect_counters (l : List Result) (hl : ∀ x ∈ l, x.nonNeg)
    (hr : allInIntRange (mathTotals l)) : (RunAll.collect l).counters = mathTotals l := by
  simp only [allInIntRange, mathTotals, List.mem_cons, List.mem_singleton, forall_eq_or_imp,
    forall_eq, List.not_mem_nil, false_imp_iff, implies_true, and_true] at hr
  obtain ⟨r1, r2, r3, r4, r5, r6, r7⟩ := hr
  have hn : ∀ x ∈ l, 0 ≤ x.Succeeded ∧ 0 ≤ x.Skipped ∧ 0 ≤ x.Failed ∧ 0 ≤ x.Panicked ∧
      0 ≤ x.FixturePanicked ∧ 0 ≤ x.ExpectedFailures ∧ 0 ≤ x.Missed := by
    intro x hx
    have := hl x hx
    simpa [Result.nonNeg, Result.counters] using this
  simp only [Result.counters, mathTotals]
  rw [collect_field Result.Succeeded (fun _ _ => rfl) rfl l (fun x hx => (hn x hx).1) r1,
    collect_field Result.Skipped (fun _ _ => rfl) rfl l (fun x hx => (hn x hx).2.1) r2,
    collect_field Result.Failed (fun _ _ => rfl) rfl l (fun x hx => (hn x hx).2.2.1) r3,
    collect_field Result.Panicked (fun _ _ => rfl) rfl l (fun x hx => (hn x hx).2.2.2.1) r4,
    collect_field Result.FixturePanicked (fun _ _ => rfl) rfl l
      (fun x hx => (hn x hx).2.2.2.2.1) r5,
    collect_field Result.ExpectedFailures (fun _ _ => rfl) rfl l
      (fun x hx => (hn x hx).2.2.2.2.2.1) r6,
    collect_field Result.Missed (fun _ _ => rfl) rfl l (fun x hx => (hn x hx).2.2.2.2.2.2) r7]

theorem Add_counters_of_inRange (r other : Result)
    (hr : allInIntRange (r.mathSums other)) : (r.Add other).counters = r.mathSums other := by
  simp only [allInIntRange, Result.mathSums, Result.counters, List.zipWith_cons_cons,
    List.zipWith_nil_right, List.mem_cons, List.mem_singleton, forall_eq_or_imp, forall_eq,
    List.not_mem_nil, false_imp_iff, implies_true, and_true] at hr
  obtain ⟨r1, r2, r3, r4, r5, r6, r7⟩ := hr
  simp only [Result.counters, Result.Add, Result.mathSums, List.zipWith_cons_cons,
    List.zipWith_nil_right, addInt_of_inIntRange r1, addInt_of_inIntRange r2,
    addInt_of_inIntRange r3, addInt_of_inIntRange r4, addInt_of_inIntRange r5,
    addInt_of_inIntRange r6, addInt_of_inIntRange r7]

theorem sum_map_eq_zero_iff (f : Result → Int) (l : List Result) (h : ∀ x ∈ l, 0 ≤ f x) :
    (l.map f).sum = 0 ↔ ∀ x ∈ l, f x = 0 := by
  induction l with
  | nil => simp
  | cons x xs ih =>
    have hx := h x (List.mem_cons_self x xs)
    have hxs : ∀ y ∈ xs, 0 ≤ f y := fun y hy => h y (List.mem_cons_of_mem x hy)
    have hs := sum_map_nonneg f xs hxs
    have ih2 := ih hxs
    simp only [List.map_cons, List.sum_cons, List.mem_cons, forall_eq_or_imp]
    constructor
    · intro hsum
      exact ⟨by omega, ih2.mp (by omega)⟩
    · rintro ⟨h1, h2⟩
      have := ih2.mpr h2
      omega

theorem foldl_Add_RunError (l : List Result) :
    ∀ acc : Result, (l.foldl Result.Add acc).RunError = acc.RunError := by
  induction l with
  | nil => intro acc; rfl
  | cons x xs ih => intro acc; rw [List.foldl_cons, ih]; rfl

theorem Result.Passed_eq_true_iff (r : Result) :
    r.Passed = true ↔
      r.Failed = 0 ∧ r.Panicked = 0 ∧ r.FixturePanicked = 0 ∧ r.Missed = 0 ∧
        r.RunError = none := by
  simp only [Result.Passed, Bool.and_eq_true, beq_iff_eq, and_assoc]

theorem Result.nonNeg_iff (r : Result) :
    r.nonNeg ↔ 0 ≤ r.Succeeded ∧ 0 ≤ r.Skipped ∧ 0 ≤ r.Failed ∧ 0 ≤ r.Panicked ∧
      0 ≤ r.FixturePanicked ∧ 0 ≤ r.ExpectedFailures ∧ 0 ≤ r.Missed := by
  simp [Result.nonNeg, Result.counters]

/-! ## Claims about the invariants of the aggregation -/

/-- C15. Non-negativity of the counters is kept by the aggregation when no sum
overflows: if the counters of `r` and of `other` are non-negative then so are those of
`r` after `r.Add(other)`, and the `Result` that `RunAll` folds from the empty one out of
non-negative per-suite results has non-negative counters. -/
theorem C15_nonNeg_invariant (r other : Result) (l : List Result) :
    (r.nonNeg → other.nonNeg → allInIntRange (r.mathSums other) → (r.Add other).nonNeg) ∧
      ((∀ x ∈ l, x.nonNeg) → allInIntRange (mathTotals l) → (RunAll.collect l).nonNeg) := by
  constructor
  · intro h1 h2 h3
    have hc := Add_counters_of_inRange r other h3
    rw [Result.nonNeg_iff] at h1 h2
    unfold Result.nonNeg
    rw [hc]
    simp only [Result.mathSums, Result.counters, List.zipWith_cons_cons,
      List.zipWith_nil_right, List.mem_cons, List.mem_singleton, forall_eq_or_imp,
      forall_eq, List.not_mem_nil, false_imp_iff, implies_true, and_true]
    omega
  · intro h1 h2
    have hc := collect_counters l h1 h2
    have hn : ∀ (f : Result → Int), (∀ x ∈ l, 0 ≤ f x) → 0 ≤ (l.map f).sum :=
      fun f hf => sum_map_nonneg f l hf
    have hx : ∀ x ∈ l, 0 ≤ x.Succeeded ∧ 0 ≤ x.Skipped ∧ 0 ≤ x.Failed ∧ 0 ≤ x.Panicked ∧
        0 ≤ x.FixturePanicked ∧ 0 ≤ x.ExpectedFailures ∧ 0 ≤ x.Missed :=
      fun x hx => (Result.nonNeg_iff x).mp (h1 x hx)
    unfold Result.nonNeg
    rw [hc]
    simp only [mathTotals, List.mem_cons, List.mem_singleton, forall_eq_or_imp, forall_eq,
      List.not_mem_nil, false_imp_iff, implies_true, and_true]
    exact ⟨hn _ (fun x h => (hx x h).1), hn _ (fun x h => (hx x h).2.1),
      hn _ (fun x h => (hx x h).2.2.1), hn _ (fun x h => (hx x h).2.2.2.1),
      hn _ (fun x h => (hx x h).2.2.2.2.1), hn _ (fun x h => (hx x h).2.2.2.2.2.1),
      hn _ (fun x h => (hx x h).2.2.2.2.2.2)⟩

/-- Witness of C15: one merge and a fold over three per-suite results. -/
theorem C15_nonNeg_invariant_witness :
    (Result.Add { Succeeded := 2, Missed := 1 } { Succeeded := 3, Failed := 1 }).nonNeg ∧
      (RunAll.collect [{ Succeeded := 2 }, { Skipped := 1, Failed := 4 },
        { Panicked := 1, WorkDir := "/tmp/w" }]).nonNeg :=
  ⟨(C15_nonNeg_invariant { Succeeded := 2, Missed := 1 } { Succeeded := 3, Failed := 1 }
      []).1 (by decide) (by decide) (by decide),
    (C15_nonNeg_invariant {} {} [{ Succeeded := 2 }, { Skipped := 1, Failed := 4 },
      { Panicked := 1, WorkDir := "/tmp/w" }]).2 (by decide) (by decide)⟩

/-- C16. The aggregated verdict is the conjunction of the parts. For `r` and `other` with
non-negative counters whose sums do not overflow and without `RunError`, `r` passes after
`r.Add(other)` exactly when `r` passed before and `other` passes; and the `Result` that
`RunAll` folds over error-free per-suite results passes exactly when each of them does. -/
theorem C16_Passed_conjunction (r other : Result) (l : List Result) :
    (r.nonNeg → other.nonNeg → allInIntRange (r.mathSums other) → r.RunError = none →
        other.RunError = none →
        ((r.Add other).Passed = true ↔ r.Passed = true ∧ other.Passed = true)) ∧
      ((∀ x ∈ l, x.nonNeg ∧ x.RunError = none) → allInIntRange (mathTotals l) →
        ((RunAll.collect l).Passed = true ↔ ∀ x ∈ l, x.Passed = true)) := by
  constructor
  · intro h1 h2 h3 h4 h5
    have hc := Add_counters_of_inRange r other h3
    simp only [Result.counters, Result.mathSums, List.zipWith_cons_cons,
      List.zipWith_nil_right, List.cons.injEq, and_true] at hc
    obtain ⟨-, -, c3, c4, c5, -, c7⟩ := hc
    have he : (r.Add other).RunError = none := h4
    rw [Result.nonNeg_iff] at h1 h2
    simp only [Result.Passed_eq_true_iff, c3, c4, c5, c7, he, h4, h5, and_true]
    omega
  · intro h1 h2
    have hn : ∀ x ∈ l, x.nonNeg := fun x hx => (h1 x hx).1
    have hx : ∀ x ∈ l, 0 ≤ x.Succeeded ∧ 0 ≤ x.Skipped ∧ 0 ≤ x.Failed ∧ 0 ≤ x.Panicked ∧
        0 ≤ x.FixturePanicked ∧ 0 ≤ x.ExpectedFailures ∧ 0 ≤ x.Missed :=
      fun x hx => (Result.nonNeg_iff x).mp (hn x hx)
    have hc := collect_counters l hn h2
    simp only [Result.counters, mathTotals, List.cons.injEq, and_true] at hc
    obtain ⟨-, -, c3, c4, c5, -, c7⟩ := hc
    have he : (RunAll.collect l).RunError = none := foldl_Add_RunError l Result.empty
    rw [Result.Passed_eq_true_iff, c3, c4, c5, c7, he,
      sum_map_eq_zero_iff Result.Failed l (fun x h => (hx x h).2.2.1),
      sum_map_eq_zero_iff Result.Panicked l (fun x h => (hx x h).2.2.2.1),
      sum_map_eq_zero_iff Result.FixturePanicked l (fun x h => (hx x h).2.2.2.2.1),
      sum_map_eq_zero_iff Result.Missed l (fun x h => (hx x h).2.2.2.2.2.2)]
    constructor
    · rintro ⟨a, b, c, d, -⟩ x hxl
      rw [Result.Passed_eq_true_iff]
      exact ⟨a x hxl, b x hxl, c x hxl, d x hxl, (h1 x hxl).2⟩
    · intro h
      have hp := fun x hxl => (Result.Passed_eq_true_iff x).mp (h x hxl)
      exact ⟨fun x hxl => (hp x hxl).1, fun x hxl => (hp x hxl).2.1,
        fun x hxl => (hp x hxl).2.2.1, fun x hxl => (hp x hxl).2.2.2.1, rfl⟩

/-- Witness of C16: a passing receiver merged with a failing `Result` does not pass, and
a fold over two passing results passes. -/
theorem C16_Passed_conjunction_witness :
    ((Result.Add { Succeeded := 2 } { Succeeded := 1, Failed := 1 }).Passed = true ↔
        Result.Passed { Succeeded := 2 } = true ∧
          Result.Passed { Succeeded := 1, Failed := 1 } = true) ∧
      ((RunAll.collect [{ Succeeded := 2 }, { Skipped := 1 }]).Passed = true ↔
        ∀ x ∈ [({ Succeeded := 2 } : Result), { Skipped := 1 }], x.Passed = true) :=
  ⟨(C16_Passed_conjunction { Succeeded := 2 } { Succeeded := 1, Failed := 1 } []).1
      (by decide) (by decide) (by decide) rfl rfl,
    (C16_Passed_conjunction {} {} [{ Succeeded := 2 }, { Skipped := 1 }]).2
      (by decide) (by decide)⟩

/-- C17. The empty `Result` is an identity for `Add`: adding it to `r` leaves every field
of `r` unchanged, adding `r` to it yields the counters and the `WorkDir` of `r`; so
`RunAll` over an empty registry returns the empty `Result`, which passes and prints
`"OK: 0 passed"`. The counters of `r` are values of the type `int`. -/
theorem C17_empty_identity (r : Result) (hr : allInIntRange r.counters) :
    r.Add Result.empty = r ∧
      (Result.empty.Add r).counters = r.counters ∧
      (Result.empty.Add r).WorkDir = r.WorkDir ∧
      (∀ (σ : Type) (Run : σ → Result), RunAll Run [] = Result.empty) ∧
      Result.empty.Passed = true ∧ Result.empty.String = "OK: 0 passed" := by
  simp only [allInIntRange, Result.counters, List.mem_cons, List.mem_singleton,
    forall_eq_or_imp, forall_eq, List.not_mem_nil, false_imp_iff, implies_true,
    and_true] at hr
  obtain ⟨r1, r2, r3, r4, r5, r6, r7⟩ := hr
  have hz : ∀ a : Int, inIntRange a → addInt a 0 = a ∧ addInt 0 a = a := by
    intro a ha
    constructor
    · rw [addInt_of_inIntRange (by simpa using ha)]; simp
    · rw [addInt_of_inIntRange (by simpa using ha)]; simp
  refine ⟨?_, ?_, ?_, fun _ _ => rfl, by decide, by decide⟩
  · cases r
    simp only [Result.Add, Result.empty, ne_eq, not_true_eq_false, and_false, if_false]
    simp only at r1 r2 r3 r4 r5 r6 r7
    simp only [(hz _ r1).1, (hz _ r2).1, (hz _ r3).1, (hz _ r4).1, (hz _ r5).1,
      (hz _ r6).1, (hz _ r7).1]
  · simp only [Result.counters, Result.Add, Result.empty, (hz _ r1).2, (hz _ r2).2,
      (hz _ r3).2, (hz _ r4).2, (hz _ r5).2, (hz _ r6).2, (hz _ r7).2]
  · by_cases hw : r.WorkDir = ""
    · simp [Result.Add, Result.empty, hw]
    · simp [Result.Add, Result.empty, hw]

/-- Witness of C17: a `Result` with counters, a work directory and a `RunError`. -/
theorem C17_empty_identity_witness :
    Result.Add { Succeeded := 3, Failed := 1, WorkDir := "/tmp/w", RunError := some "e" }
        Result.empty =
      { Succeeded := 3, Failed := 1, WorkDir := "/tmp/w", RunError := some "e" } :=
  (C17_empty_identity
    { Succeeded := 3, Failed := 1, WorkDir := "/tmp/w", RunError := some "e" }
    (by decide)).1

/-- C18. Without a `RunError`, `String()` has the passed count right after the prefix: it
starts with `"OK: <Succeeded> passed"` when the `Result` passes and with
`"OOPS: <Succeeded> passed"` otherwise, also when `Succeeded` is zero. -/
theorem C18_String_passed_first (r : Result) (h : r.RunError = none) :
    ∃ rest : GoString,
      r.String =
        (if r.Passed = true then "OK: " else "OOPS: ") ++ sprintfD r.Succeeded ++
          " passed" ++ rest := by
  refine ⟨List.foldl appendEntry ""
    ((r.laterCategories.filter (fun c => c.1 ≠ 0)).map countEntry) ++ r.workDirLine, ?_⟩
  rw [Result.String_of_noError r h]
  simp only [Result.summaryWithPassed, String.intercalate,
    ← Result.verdictPrefix_of_Passed r h]
  have key : ∀ (a : GoString) (l : List GoString),
      List.foldl appendEntry a l = a ++ List.foldl appendEntry "" l := by
    intro a l
    rw [append_foldl_appendEntry, String.append_empty]
  rw [intercalate_go_eq_foldl, key]
  simp only [countEntry, String.append_assoc]

/-- Witness of C18: a `Result` with only `Failed = 2` prints a zero passed count. -/
theorem C18_String_passed_first_witness :
    (∃ rest : GoString,
        Result.String { Failed := 2 } = "OOPS: " ++ sprintfD 0 ++ " passed" ++ rest) ∧
      Result.String { Failed := 2 } = "OOPS: 0 passed, 2 FAILED" :=
  ⟨C18_String_passed_first { Failed := 2 } rfl, by decide⟩
